import Mathlib

/-!
# Verification of the memory-api repository

Shallow embedding of `src/memory_api.py` (SQLite-backed memory store plus
FastAPI endpoints) and `src/memory_client.py` (HTTP client), with theorems
settling the specification's claims about them.

The SQLite `memories` table is modelled as a list of rows together with the
`AUTOINCREMENT` counter.  The wall clock (`datetime.utcnow()`) and storage
failures (exceptions raised by the SQLite driver) are modelled as explicit
parameters, since they are the only sources of nondeterminism.
-/

/-- A naive UTC datetime as produced by Python's `datetime.utcnow()`:
calendar fields plus a microsecond component. -/
structure Datetime where
  year : Nat
  month : Nat
  day : Nat
  hour : Nat
  minute : Nat
  second : Nat
  microsecond : Nat
deriving DecidableEq, Repr

/-- Ranges a `datetime.datetime` object guarantees for its fields
(`MINYEAR = 1 ≤ year ≤ MAXYEAR = 9999`, etc.). -/
def Datetime.Valid (d : Datetime) : Prop :=
  d.year < 10000 ∧ 1 ≤ d.month ∧ d.month ≤ 12 ∧ 1 ≤ d.day ∧ d.day ≤ 31 ∧
    d.hour < 24 ∧ d.minute < 60 ∧ d.second < 60 ∧ d.microsecond < 1000000

instance (d : Datetime) : Decidable d.Valid := by
  unfold Datetime.Valid
  exact inferInstance

/-- The decimal digit character for `n` (meaningful for `n < 10`). -/
def digitChar (n : Nat) : Char := Char.ofNat (48 + n)

/-- Two decimal digits, zero padded (Python `"%02d"`). -/
def pad2 (n : Nat) : List Char := [digitChar (n / 10), digitChar (n % 10)]

/-- Four decimal digits, zero padded (Python `"%04d"`). -/
def pad4 (n : Nat) : List Char :=
  [digitChar (n / 1000), digitChar (n / 100 % 10), digitChar (n / 10 % 10), digitChar (n % 10)]

/-- Six decimal digits, zero padded (Python `"%06d"`). -/
def pad6 (n : Nat) : List Char :=
  [digitChar (n / 100000), digitChar (n / 10000 % 10), digitChar (n / 1000 % 10),
    digitChar (n / 100 % 10), digitChar (n / 10 % 10), digitChar (n % 10)]

/-- Character list of `datetime.isoformat()` on a naive datetime:
`YYYY-MM-DDTHH:MM:SS` followed by `.ffffff` exactly when the microsecond
component is non-zero (CPython omits the fractional part when it is 0). -/
def isoformatChars (d : Datetime) : List Char :=
  pad4 d.year ++ '-' :: pad2 d.month ++ '-' :: pad2 d.day ++
    'T' :: pad2 d.hour ++ ':' :: pad2 d.minute ++ ':' :: pad2 d.second ++
    (if d.microsecond = 0 then [] else '.' :: pad6 d.microsecond)

/-- `datetime.utcnow().isoformat()` as stored in the `timestamp` column. -/
def isoformat (d : Datetime) : String := ⟨isoformatChars d⟩

/-- One row of the SQLite `memories` table:
`id INTEGER PRIMARY KEY AUTOINCREMENT, user_id TEXT, timestamp TEXT, message TEXT`. -/
structure Row where
  id : Nat
  user_id : String
  timestamp : String
  message : String
deriving DecidableEq, Repr

/-- The database state: the `memories` table rows (in physical insertion
order) plus the next `AUTOINCREMENT` value. -/
structure DB where
  rows : List Row
  nextId : Nat
deriving DecidableEq, Repr

/-- Database invariant maintained by SQLite: row ids strictly increase in
insertion order and every id is below the autoincrement counter. -/
def DB.WF (db : DB) : Prop :=
  db.rows.Pairwise (fun a b => a.id < b.id) ∧ ∀ r ∈ db.rows, r.id < db.nextId

/-- `init_db`: `CREATE TABLE IF NOT EXISTS` — creates the empty table when
none exists (SQLite `AUTOINCREMENT` starts handing out ids at 1) and is a
no-op on an existing database. -/
def init_db : Option DB → DB
  | none => { rows := [], nextId := 1 }
  | some db => db

/-- The freshly initialised, empty database. -/
def emptyDB : DB := init_db none

/-- `add_memory(user_id, message)`, success path: the `INSERT` statement run
inside `with conn:`.  Appends one row whose `timestamp` is
`datetime.utcnow().isoformat()` — `now` models the wall clock at insertion —
and whose id is the next autoincrement value. -/
def add_memory (user_id message : String) (now : Datetime) (db : DB) : DB :=
  { rows := db.rows ++ [⟨db.nextId, user_id, isoformat now, message⟩],
    nextId := db.nextId + 1 }

/-- `add_memory` including the failure behaviour of the SQLite driver.
`fail = some e` models `conn.execute` raising an exception with message `e`;
the `with conn:` context manager then rolls the transaction back, leaving the
database unchanged, and re-raises.  `fail = none` is the commit path. -/
def add_memoryTx (user_id message : String) (now : Datetime) (fail : Option String)
    (db : DB) : Except String Unit × DB :=
  match fail with
  | some e => (Except.error e, db)
  | none => (Except.ok (), add_memory user_id message now db)

/-- Insert a row into a list that is sorted by `id`, keeping it sorted. -/
def insertById (r : Row) : List Row → List Row
  | [] => [r]
  | x :: xs => if r.id ≤ x.id then r :: x :: xs else x :: insertById r xs

/-- Sort rows by ascending `id` — the semantics of `ORDER BY id ASC`. -/
def sortById (l : List Row) : List Row := l.foldr insertById []

/-- `get_memories(user_id)`: `SELECT timestamp, message FROM memories WHERE
user_id = ? ORDER BY id ASC`, returning `(timestamp, message)` pairs (the
Python code builds `{"timestamp": ..., "message": ...}` dictionaries). -/
def get_memories (user_id : String) (db : DB) : List (String × String) :=
  (sortById (db.rows.filter (fun r => r.user_id == user_id))).map
    (fun r => (r.timestamp, r.message))

-- Sanity check definitions compile; basic lemmas follow.

theorem insertById_of_le (r : Row) (x : Row) (xs : List Row) (h : r.id ≤ x.id) :
    insertById r (x :: xs) = r :: x :: xs := by
  simp [insertById, h]

/-- Sorting a list already sorted by `id` is the identity. -/
theorem sortById_eq_self (l : List Row) (h : l.Pairwise (fun a b => a.id < b.id)) :
    sortById l = l := by
  induction l with
  | nil => rfl
  | cons x xs ih =>
    have hx : ∀ y ∈ xs, x.id < y.id := (List.pairwise_cons.mp h).1
    have hxs : xs.Pairwise (fun a b => a.id < b.id) := (List.pairwise_cons.mp h).2
    have : sortById (x :: xs) = insertById x (sortById xs) := rfl
    rw [this, ih hxs]
    cases xs with
    | nil => rfl
    | cons y ys =>
      exact insertById_of_le x y ys (Nat.le_of_lt (hx y (List.mem_cons_self y ys)))

/-- `add_memory` preserves the database invariant. -/
theorem WF_add_memory (u m : String) (now : Datetime) (db : DB) (h : db.WF) :
    (add_memory u m now db).WF := by
  obtain ⟨hsort, hbound⟩ := h
  constructor
  · refine List.pairwise_append.mpr ⟨hsort, List.pairwise_singleton _ _, ?_⟩
    intro a ha b hb
    have hb' : b = ⟨db.nextId, u, isoformat now, m⟩ := List.mem_singleton.mp hb
    rw [hb']
    exact hbound a ha
  · intro r hr
    rcases List.mem_append.mp hr with h1 | h2
    · exact Nat.lt_succ_of_lt (hbound r h1)
    · rw [List.mem_singleton.mp h2]
      exact Nat.lt_succ_self _

/-- Reading the key just appended to: the new pair is at the end, in
`sequence_id` order, whatever the timestamps are. -/
theorem get_memories_add_self (k m : String) (now : Datetime) (db : DB) (h : db.WF) :
    get_memories k (add_memory k m now db) =
      get_memories k db ++ [(isoformat now, m)] := by
  obtain ⟨hsort, hbound⟩ := h
  unfold get_memories add_memory
  simp only [List.filter_append]
  have hnew : List.filter (fun r => r.user_id == k)
      ([⟨db.nextId, k, isoformat now, m⟩] : List Row) =
      ([⟨db.nextId, k, isoformat now, m⟩] : List Row) := by
    simp
  rw [hnew]
  have hsub : (db.rows.filter (fun r => r.user_id == k)).Sublist db.rows :=
    List.filter_sublist _
  have hfsort : (db.rows.filter (fun r => r.user_id == k)).Pairwise
      (fun a b => a.id < b.id) := hsort.sublist hsub
  have happ : ((db.rows.filter (fun r => r.user_id == k)) ++
      ([⟨db.nextId, k, isoformat now, m⟩] : List Row)).Pairwise
      (fun a b => a.id < b.id) := by
    refine List.pairwise_append.mpr ⟨hfsort, List.pairwise_singleton _ _, ?_⟩
    intro a ha b hb
    rw [List.mem_singleton.mp hb]
    exact hbound a (hsub.mem ha)
  rw [sortById_eq_self _ happ, sortById_eq_self _ hfsort, List.map_append]
  rfl

/-- Appending under a different key does not change what a key reads. -/
theorem get_memories_add_other (k u m : String) (now : Datetime) (db : DB)
    (hne : u ≠ k) : get_memories k (add_memory u m now db) = get_memories k db := by
  unfold get_memories add_memory
  simp only [List.filter_append]
  have hnew : List.filter (fun r => r.user_id == k)
      ([⟨db.nextId, u, isoformat now, m⟩] : List Row) = [] := by
    simp [hne]
  rw [hnew, List.append_nil]

/-- One append call in an interleaved trace: key, clock reading, text. -/
structure AppendCall where
  key : String
  now : Datetime
  text : String
deriving DecidableEq, Repr

/-- Run a sequence of successful `add_memory` calls in order. -/
def runOps (ops : List AppendCall) (db : DB) : DB :=
  ops.foldl (fun d o => add_memory o.key o.text o.now d) db

/-- The `(timestamp, message)` pair an append call produces. -/
def AppendCall.pair (o : AppendCall) : String × String := (isoformat o.now, o.text)

theorem WF_runOps (ops : List AppendCall) (db : DB) (h : db.WF) : (runOps ops db).WF := by
  induction ops generalizing db with
  | nil => exact h
  | cons o rest ih => exact ih _ (WF_add_memory o.key o.text o.now db h)

/-- What any key reads after an interleaved trace of appends: its previous
contents followed by exactly the pairs appended under it, in call order. -/
theorem get_memories_runOps (k : String) (ops : List AppendCall) (db : DB) (h : db.WF) :
    get_memories k (runOps ops db) =
      get_memories k db ++ (ops.filter (fun o => o.key == k)).map AppendCall.pair := by
  induction ops generalizing db with
  | nil => simp [runOps]
  | cons o rest ih =>
    have hstep : runOps (o :: rest) db = runOps rest (add_memory o.key o.text o.now db) := rfl
    rw [hstep, ih _ (WF_add_memory o.key o.text o.now db h)]
    by_cases hk : o.key = k
    · subst hk
      rw [get_memories_add_self o.key o.text o.now db h]
      have hb : (o.key == o.key) = true := beq_self_eq_true o.key
      simp [List.filter_cons, hb, AppendCall.pair]
    · rw [get_memories_add_other k o.key o.text o.now db hk]
      have hb : (o.key == k) = false := beq_eq_false_iff_ne.mpr hk
      simp [List.filter_cons, hb]

/-! ## The FastAPI service layer -/

/-- `class MemoryRecord(BaseModel)`: the validated request body of
`POST /store_memory`. -/
structure MemoryRecord where
  user_id : String
  message : String
deriving DecidableEq, Repr

/-- An `HTTPException(status_code, detail)` as raised by the endpoints,
serialised by FastAPI as `{"detail": <detail>}` with the given status. -/
structure HTTPErr where
  status_code : Nat
  detail : String
deriving DecidableEq, Repr

/-- The success body of `POST /store_memory`:
`{"status": "success", "message": "Memory stored"}`. -/
structure StoreResponse where
  status : String
  message : String
deriving DecidableEq, Repr

/-- The success body of `GET /get_memory`: the echoed `user_id` and the
`memories` list of `(timestamp, message)` pairs. -/
structure GetResponse where
  user_id : String
  memories : List (String × String)
deriving DecidableEq, Repr

/-- Pydantic validation of the `POST /store_memory` body against
`MemoryRecord` (`user_id: str`, `message: str`): each field must be present
and a string; an absent field is rejected with a 422 client error before the
endpoint function runs.  No other constraint is declared, so any string —
including the empty string — passes.  `none` models an absent field. -/
def parseMemoryRecord (user_id message : Option String) : Except HTTPErr MemoryRecord :=
  match user_id, message with
  | some u, some m => Except.ok ⟨u, m⟩
  | _, _ => Except.error ⟨422, "field required"⟩

/-- The `store_memory` endpoint body: calls `add_memory` and converts any
exception `e` into `HTTPException(status_code=500, detail=str(e))`; on
success returns the confirmation dictionary.  `fail` is the storage-failure
oracle of `add_memoryTx`. -/
def store_memory (record : MemoryRecord) (now : Datetime) (fail : Option String)
    (db : DB) : Except HTTPErr StoreResponse × DB :=
  match add_memoryTx record.user_id record.message now fail db with
  | (Except.error e, db') => (Except.error ⟨500, e⟩, db')
  | (Except.ok _, db') => (Except.ok ⟨"success", "Memory stored"⟩, db')

/-- `POST /store_memory` as a whole: framework validation, then the endpoint.
A validation failure never reaches the store. -/
def storeEndpoint (user_id message : Option String) (now : Datetime)
    (fail : Option String) (db : DB) : Except HTTPErr StoreResponse × DB :=
  match parseMemoryRecord user_id message with
  | Except.error e => (Except.error e, db)
  | Except.ok record => store_memory record now fail db

/-- The `get_memory` endpoint: calls `get_memories` and converts any
exception `e` into `HTTPException(status_code=500, detail=str(e))`; on
success returns the echoed `user_id` and the memories.  `fail = some e`
models the SQLite read raising an exception with message `e`. -/
def get_memory (user_id : String) (fail : Option String) (db : DB) :
    Except HTTPErr GetResponse :=
  match fail with
  | some e => Except.error ⟨500, e⟩
  | none => Except.ok ⟨user_id, get_memories user_id db⟩

/-! ## The HTTP client (`memory_client.py`) -/

/-- A JSON value, as produced by `response.json()` (Python objects:
`None`, `bool`, numbers, `str`, `list`, `dict`).  `json.loads` yields
dictionaries with unique keys (later duplicates overwrite earlier ones), so
`obj` is taken to be the already-deduplicated association list. -/
inductive JVal where
  | null : JVal
  | bool : Bool → JVal
  | num : Int → JVal
  | str : String → JVal
  | arr : List JVal → JVal
  | obj : List (String × JVal) → JVal
deriving Repr

/-- An HTTP response as seen by `requests`: the status code and the body.
`body = none` models a body that is not valid JSON, in which case
`response.json()` raises. -/
structure HTTPResponse where
  status : Nat
  body : Option JVal

/-- `response.raise_for_status()`: raises `HTTPError` exactly when the
status code is in 400–599. -/
def raise_for_status (status : Nat) : Except String Unit :=
  if 400 ≤ status ∧ status < 600 then
    Except.error ("HTTPError " ++ toString status)
  else Except.ok ()

/-- Python `dict.get(key, default)` on a JSON object. -/
def dictGet (kvs : List (String × JVal)) (k : String) (dflt : JVal) : JVal :=
  match kvs.find? (fun p => p.1 == k) with
  | some p => p.2
  | none => dflt

/-- `MemoryClient.get_memory` applied to the server's response:
`raise_for_status()` propagates HTTP errors, `response.json()` propagates a
non-JSON body, and `data.get("memories", [])` returns the `memories` value
of a JSON object — defaulting to the empty list when the key is absent —
or raises `AttributeError` when the body is JSON but not an object. -/
def clientGetMemory (resp : HTTPResponse) : Except String JVal :=
  match raise_for_status resp.status with
  | Except.error e => Except.error e
  | Except.ok _ =>
    match resp.body with
    | none => Except.error "JSONDecodeError"
    | some (JVal.obj kvs) => Except.ok (dictGet kvs "memories" (JVal.arr []))
    | some _ => Except.error "AttributeError"

/-- `MemoryClient.__init__`: `self.base_url = base_url.rstrip("/")` —
strip every trailing slash. -/
def rstripSlash (s : String) : String := ⟨(s.data.reverse.dropWhile (· == '/')).reverse⟩

/-- The stored `base_url` of `MemoryClient(base_url)`. -/
def clientBaseUrl (base_url : String) : String := rstripSlash base_url

/-- The URL `store_memory` posts to: `f"{self.base_url}/store_memory"`. -/
def storeMemoryUrl (base_url : String) : String := clientBaseUrl base_url ++ "/store_memory"

/-- The URL `get_memory` fetches: `f"{self.base_url}/get_memory"`. -/
def getMemoryUrl (base_url : String) : String := clientBaseUrl base_url ++ "/get_memory"

/-! ## Injectivity of `isoformat` on valid datetimes -/

theorem digitChar_inj_fin : ∀ a b : Fin 10, digitChar a.val = digitChar b.val → a = b := by
  decide

theorem digitChar_inj (a b : Nat) (ha : a < 10) (hb : b < 10)
    (h : digitChar a = digitChar b) : a = b :=
  congrArg Fin.val (digitChar_inj_fin ⟨a, ha⟩ ⟨b, hb⟩ h)

/-- `isoformat` loses no information on valid datetimes: distinct datetimes
(down to the microsecond) produce distinct timestamp strings. -/
theorem isoformatChars_inj (d1 d2 : Datetime) (hv1 : d1.Valid) (hv2 : d2.Valid)
    (h : isoformatChars d1 = isoformatChars d2) : d1 = d2 := by
  obtain ⟨y1, mo1, dy1, hr1, mi1, s1, us1⟩ := d1
  obtain ⟨y2, mo2, dy2, hr2, mi2, s2, us2⟩ := d2
  dsimp only [Datetime.Valid] at hv1 hv2
  obtain ⟨hy1, hmoa1, hmob1, hda1, hdb1, hh1, hmi1, hs1, hus1⟩ := hv1
  obtain ⟨hy2, hmoa2, hmob2, hda2, hdb2, hh2, hmi2, hs2, hus2⟩ := hv2
  simp only [isoformatChars, pad4, pad2, pad6, List.cons_append, List.nil_append,
    List.cons.injEq, and_true, true_and] at h
  obtain ⟨ha1, ha2, ha3, ha4, hb1, hb2, hc1, hc2, hd1, hd2, he1, he2, hf1, hf2, hfrac⟩ := h
  simp only [Datetime.mk.injEq]
  refine ⟨?_, ?_, ?_, ?_, ?_, ?_, ?_⟩
  · have e1 := digitChar_inj _ _ (by omega) (by omega) ha1
    have e2 := digitChar_inj _ _ (by omega) (by omega) ha2
    have e3 := digitChar_inj _ _ (by omega) (by omega) ha3
    have e4 := digitChar_inj _ _ (by omega) (by omega) ha4
    omega
  · have e1 := digitChar_inj _ _ (by omega) (by omega) hb1
    have e2 := digitChar_inj _ _ (by omega) (by omega) hb2
    omega
  · have e1 := digitChar_inj _ _ (by omega) (by omega) hc1
    have e2 := digitChar_inj _ _ (by omega) (by omega) hc2
    omega
  · have e1 := digitChar_inj _ _ (by omega) (by omega) hd1
    have e2 := digitChar_inj _ _ (by omega) (by omega) hd2
    omega
  · have e1 := digitChar_inj _ _ (by omega) (by omega) he1
    have e2 := digitChar_inj _ _ (by omega) (by omega) he2
    omega
  · have e1 := digitChar_inj _ _ (by omega) (by omega) hf1
    have e2 := digitChar_inj _ _ (by omega) (by omega) hf2
    omega
  · by_cases c1 : us1 = 0 <;> by_cases c2 : us2 = 0
    · omega
    · rw [if_pos c1, if_neg c2] at hfrac
      exact absurd hfrac (by simp)
    · rw [if_neg c1, if_pos c2] at hfrac
      exact absurd hfrac (by simp)
    · rw [if_neg c1, if_neg c2] at hfrac
      simp only [List.cons.injEq, true_and, and_true] at hfrac
      obtain ⟨g1, g2, g3, g4, g5, g6⟩ := hfrac
      have e1 := digitChar_inj _ _ (by omega) (by omega) g1
      have e2 := digitChar_inj _ _ (by omega) (by omega) g2
      have e3 := digitChar_inj _ _ (by omega) (by omega) g3
      have e4 := digitChar_inj _ _ (by omega) (by omega) g4
      have e5 := digitChar_inj _ _ (by omega) (by omega) g5
      have e6 := digitChar_inj _ _ (by omega) (by omega) g6
      omega

theorem isoformat_inj (d1 d2 : Datetime) (hv1 : d1.Valid) (hv2 : d2.Valid)
    (h : isoformat d1 = isoformat d2) : d1 = d2 :=
  isoformatChars_inj d1 d2 hv1 hv2 (congrArg String.data h)

/-- A key none of whose rows exist reads the empty list. -/
theorem get_memories_of_not_mem (k : String) (db : DB)
    (h : ∀ r ∈ db.rows, r.user_id ≠ k) : get_memories k db = [] := by
  unfold get_memories
  have : db.rows.filter (fun r => r.user_id == k) = [] := by
    apply List.filter_eq_nil_iff.mpr
    intro r hr
    simp [h r hr]
  rw [this]
  rfl

theorem emptyDB_WF : emptyDB.WF :=
  ⟨List.Pairwise.nil, fun r hr => absurd hr (List.not_mem_nil r)⟩

theorem emptyDB_no_rows (k : String) : ∀ r ∈ emptyDB.rows, r.user_id ≠ k :=
  fun r hr => absurd hr (List.not_mem_nil r)

/-- A concrete clock reading used to instantiate theorems. -/
def sampleTime : Datetime := ⟨2024, 1, 2, 3, 4, 5, 6⟩

/-! ## The claims -/

/-- **C1**: a sequence of `add_memory` calls to the same owner key with
distinct texts is returned by `get_memories` for that key exactly in call
order — ordering is by `sequence_id` (the autoincrement row id), never by
the stored timestamp, even when the clock readings collide or go
backwards (the `calls` list pairs an arbitrary clock reading with each
text, so collisions and non-monotonic timestamps are included). -/
theorem C1_append_read_in_call_order (db : DB) (k : String)
    (calls : List (Datetime × String)) (hwf : db.WF)
    (hempty : ∀ r ∈ db.rows, r.user_id ≠ k)
    (hdistinct : (calls.map Prod.snd).Nodup) :
    get_memories k (runOps (calls.map (fun c => ⟨k, c.1, c.2⟩)) db) =
      calls.map (fun c => (isoformat c.1, c.2)) := by
  rw [get_memories_runOps k _ db hwf, get_memories_of_not_mem k db hempty,
    List.nil_append]
  have hfilter : (calls.map (fun c : Datetime × String =>
      (⟨k, c.1, c.2⟩ : AppendCall))).filter (fun o => o.key == k) =
      calls.map (fun c => ⟨k, c.1, c.2⟩) := by
    apply List.filter_eq_self.mpr
    intro o ho
    obtain ⟨c, hc, rfl⟩ := List.mem_map.mp ho
    exact beq_self_eq_true k
  rw [hfilter, List.map_map]
  rfl

/-- **C1** witness: two appends for `"alice"` with *colliding* timestamps
come back in call order. -/
theorem C1_witness :
    get_memories "alice" (runOps ([(sampleTime, "Hello world"),
        (sampleTime, "Second message")].map
        (fun c => ⟨"alice", c.1, c.2⟩)) emptyDB) =
      [(sampleTime, "Hello world"), (sampleTime, "Second message")].map
        (fun c => (isoformat c.1, c.2)) :=
  C1_append_read_in_call_order emptyDB "alice"
    [(sampleTime, "Hello world"), (sampleTime, "Second message")]
    emptyDB_WF (emptyDB_no_rows "alice") (by decide)

/-- **C2**: under any interleaving of appends for several keys, every pair
returned by `get_memories` for key `B` comes from an append made under `B`
itself — for `A ≠ B`, never from an append made under key `A`. -/
theorem C2_key_isolation (A B : String) (hAB : A ≠ B) (ops : List AppendCall)
    (p : String × String) (hp : p ∈ get_memories B (runOps ops emptyDB)) :
    ∃ o ∈ ops, o.key = B ∧ o.key ≠ A ∧ p = o.pair := by
  rw [get_memories_runOps B ops emptyDB emptyDB_WF,
    get_memories_of_not_mem B emptyDB (emptyDB_no_rows B), List.nil_append] at hp
  obtain ⟨o, ho, rfl⟩ := List.mem_map.mp hp
  obtain ⟨hmem, hkey⟩ := List.mem_filter.mp ho
  have hkB : o.key = B := by simpa using hkey
  exact ⟨o, hmem, hkB, by rw [hkB]; exact fun h => hAB h.symm, rfl⟩

/-- **C2** witness: with appends interleaved under `"alice"` and `"bob"`,
the one pair read back for `"bob"` comes from the `"bob"` append. -/
theorem C2_witness :
    ∃ o ∈ [(⟨"alice", sampleTime, "hi"⟩ : AppendCall),
        ⟨"bob", sampleTime, "yo"⟩, ⟨"alice", sampleTime, "again"⟩],
      o.key = "bob" ∧ o.key ≠ "alice" ∧ (isoformat sampleTime, "yo") = o.pair :=
  C2_key_isolation "alice" "bob" (by decide)
    [⟨"alice", sampleTime, "hi"⟩, ⟨"bob", sampleTime, "yo"⟩,
      ⟨"alice", sampleTime, "again"⟩]
    (isoformat sampleTime, "yo") (by decide)

/-- **C3**: appending text `T` under key `K` and immediately reading `K`
yields a non-empty list whose last element is exactly `(isoformat now, T)` —
the text component is the stored `T`, unchanged. -/
theorem C3_round_trip (K T : String) (now : Datetime) (db : DB) (hwf : db.WF) :
    get_memories K (add_memory K T now db) ≠ [] ∧
      (get_memories K (add_memory K T now db)).getLast? = some (isoformat now, T) := by
  rw [get_memories_add_self K T now db hwf]
  exact ⟨by simp, List.getLast?_concat _⟩

/-- **C3** witness at a concrete key, text and database. -/
theorem C3_witness :
    get_memories "k" (add_memory "k" "Hello world" sampleTime emptyDB) ≠ [] ∧
      (get_memories "k" (add_memory "k" "Hello world" sampleTime emptyDB)).getLast? =
        some (isoformat sampleTime, "Hello world") :=
  C3_round_trip "k" "Hello world" sampleTime emptyDB emptyDB_WF

/-- **C4**: a key for which no row exists reads back the empty list, and the
`GET /get_memory` endpoint answers it with a 200 body echoing the key and an
empty `memories` list — an unknown key is never an error for reads. -/
theorem C4_unknown_key_not_error (k : String) (db : DB)
    (hnone : ∀ r ∈ db.rows, r.user_id ≠ k) :
    get_memories k db = [] ∧ get_memory k none db = Except.ok ⟨k, []⟩ := by
  have h := get_memories_of_not_mem k db hnone
  exact ⟨h, by simp [get_memory, h]⟩

/-- **C4** witness: reading `"bob"` from the fresh database. -/
theorem C4_witness :
    get_memories "bob" emptyDB = [] ∧
      get_memory "bob" none emptyDB = Except.ok ⟨"bob", []⟩ :=
  C4_unknown_key_not_error "bob" emptyDB (emptyDB_no_rows "bob")

/-- **C5** counterexample: the claim says a request with an *empty*
`user_id` or `message` is rejected as a client error and creates no entry.
The pydantic model `user_id: str; message: str` only checks presence and
type, so the empty string passes: at `user_id = ""` the request succeeds and
an entry is created, refuting the claim. -/
theorem C5_counterexample :
    ¬ (∀ (uid msg : Option String) (now : Datetime) (db : DB),
        (uid = some "" ∨ msg = some "") →
          (∃ err, (storeEndpoint uid msg now none db).1 = Except.error err ∧
            400 ≤ err.status_code ∧ err.status_code < 500) ∧
          (storeEndpoint uid msg now none db).2 = db) := by
  intro h
  obtain ⟨⟨err, herr, -, -⟩, -⟩ :=
    h (some "") (some "hi") sampleTime emptyDB (Or.inl rfl)
  have hok : (storeEndpoint (some "") (some "hi") sampleTime none emptyDB).1 =
      Except.ok ⟨"success", "Memory stored"⟩ := rfl
  rw [hok] at herr
  exact Except.noConfusion herr

/-- **C5** (amended): the `POST /store_memory` body is validated for the
*presence* of `user_id` and `message`; an absent field is rejected with a
422 client error and is not forwarded to the store (the database is
untouched).  A request in which both fields are present — even as empty
strings — passes validation and is forwarded to the store unchanged. -/
theorem C5_presence_validation (uid msg : Option String) (now : Datetime)
    (fail : Option String) (db : DB) :
    ((uid = none ∨ msg = none) →
      storeEndpoint uid msg now fail db = (Except.error ⟨422, "field required"⟩, db)) ∧
    (∀ u m, uid = some u → msg = some m →
      storeEndpoint uid msg now fail db = store_memory ⟨u, m⟩ now fail db) := by
  constructor
  · rintro (rfl | rfl)
    · rfl
    · cases uid <;> rfl
  · rintro u m rfl rfl
    rfl

/-- **C5** witness: a request missing `user_id` is a 422 client error and
leaves the database untouched. -/
theorem C5_witness :
    storeEndpoint none (some "hi") sampleTime none emptyDB =
      (Except.error ⟨422, "field required"⟩, emptyDB) :=
  (C5_presence_validation none (some "hi") sampleTime none emptyDB).1 (Or.inl rfl)

/-- **C6**: when the store raises a failure with message `e`, both endpoints
answer with `HTTPException(500, e)` — the diagnostic string is `str(e)` —
and never a success response; the failure is not discarded (and a failed
store changes nothing). -/
theorem C6_storage_failure_surfaced (record : MemoryRecord) (k e : String)
    (now : Datetime) (db : DB) :
    store_memory record now (some e) db = (Except.error ⟨500, e⟩, db) ∧
      get_memory k (some e) db = Except.error ⟨500, e⟩ :=
  ⟨rfl, rfl⟩

/-- **C7**: a failed `add_memory` is all-or-nothing — the transaction rolls
back, the database is exactly what it was, any subsequent read returns
exactly the pre-failure entries — and a failed read yields an error, never a
partial list. -/
theorem C7_atomic_per_call (u m k e e' : String) (now : Datetime) (db : DB) :
    (add_memoryTx u m now (some e) db).2 = db ∧
      (add_memoryTx u m now (some e) db).1 = Except.error e ∧
      get_memories k (add_memoryTx u m now (some e) db).2 = get_memories k db ∧
      get_memory k (some e') db = Except.error ⟨500, e'⟩ :=
  ⟨rfl, rfl, rfl, rfl⟩

/-- **C8**: the `recorded_at` timestamp of a new entry is
`datetime.utcnow().isoformat()` of the store's clock at insertion — the
statement holds for every caller-supplied `user_id` and `message`, which the
timestamp does not depend on — and `isoformat` is injective on valid
datetimes, so the stored string carries the full microsecond precision of
the clock. -/
theorem C8_store_assigned_timestamp (u m : String) (now : Datetime) (db : DB) :
    ((add_memory u m now db).rows.getLast?).map Row.timestamp =
        some (isoformat now) ∧
      (∀ d1 d2 : Datetime, d1.Valid → d2.Valid →
        isoformat d1 = isoformat d2 → d1 = d2) := by
  constructor
  · show ((db.rows ++ [_]).getLast?).map Row.timestamp = _
    rw [List.getLast?_concat]
    rfl
  · exact isoformat_inj

/-- **C8** witness: concrete instantiation, discharging the validity
hypotheses of the injectivity part at `sampleTime`. -/
theorem C8_witness :
    ((add_memory "alice" "hi" sampleTime emptyDB).rows.getLast?).map Row.timestamp =
        some (isoformat sampleTime) ∧ sampleTime = sampleTime :=
  ⟨(C8_store_assigned_timestamp "alice" "hi" sampleTime emptyDB).1,
    (C8_store_assigned_timestamp "alice" "hi" sampleTime emptyDB).2 sampleTime
      sampleTime (by decide) (by decide) rfl⟩

/-- A `GET /get_memory` response that is well formed per the documented
protocol: a success status whose body is a JSON object carrying the
`memories` key. -/
def respWellFormed (resp : HTTPResponse) : Prop :=
  resp.status < 400 ∧ ∃ kvs, resp.body = some (JVal.obj kvs) ∧
    (kvs.find? (fun p => p.1 == "memories")).isSome

/-- Whether a JSON value is an object (a Python `dict`). -/
def JVal.isObj : JVal → Bool
  | JVal.obj _ => true
  | _ => false

/-- **C9** counterexample: the claim says `MemoryClient.get_memory`
propagates an error on *any* malformed response.  A 200 response whose JSON
object body lacks the `memories` key is malformed, yet
`data.get("memories", [])` silently fabricates the empty list and the call
succeeds, refuting the claim. -/
theorem C9_counterexample :
    ¬ (∀ resp : HTTPResponse, ¬ respWellFormed resp →
        ∃ e, clientGetMemory resp = Except.error e) := by
  intro h
  have hmal : ¬ respWellFormed ⟨200, some (JVal.obj [("user_id", JVal.str "alice")])⟩ := by
    rintro ⟨-, kvs, hbody, hfind⟩
    have hkvs : kvs = [("user_id", JVal.str "alice")] := by
      injection hbody with hb
      injection hb with hb'
      exact hb'.symm
    rw [hkvs] at hfind
    simp [List.find?] at hfind
  obtain ⟨e, he⟩ := h ⟨200, some (JVal.obj [("user_id", JVal.str "alice")])⟩ hmal
  have hok : clientGetMemory
      ⟨200, some (JVal.obj [("user_id", JVal.str "alice")])⟩ =
      Except.ok (JVal.arr []) := rfl
  rw [hok] at he
  exact Except.noConfusion he

/-- **C9** (amended): `MemoryClient.get_memory` propagates an error on an
error status (400–599), on a body that is not valid JSON, and on a JSON body
that is not an object; on a success response whose body is a JSON object it
returns `body.get("memories", [])` — exactly the `memories` value when the
key is present (the echoed `user_id` is dropped), and the empty list, not an
error, when the key is absent. -/
theorem C9_client_behaviour (resp : HTTPResponse) :
    (400 ≤ resp.status ∧ resp.status < 600 →
        ∃ e, clientGetMemory resp = Except.error e) ∧
    (¬ (400 ≤ resp.status ∧ resp.status < 600) → resp.body = none →
        clientGetMemory resp = Except.error "JSONDecodeError") ∧
    (∀ v, ¬ (400 ≤ resp.status ∧ resp.status < 600) → resp.body = some v →
        v.isObj = false → clientGetMemory resp = Except.error "AttributeError") ∧
    (∀ kvs p, ¬ (400 ≤ resp.status ∧ resp.status < 600) →
        resp.body = some (JVal.obj kvs) →
        kvs.find? (fun q => q.1 == "memories") = some p →
        clientGetMemory resp = Except.ok p.2) ∧
    (∀ kvs, ¬ (400 ≤ resp.status ∧ resp.status < 600) →
        resp.body = some (JVal.obj kvs) →
        kvs.find? (fun q => q.1 == "memories") = none →
        clientGetMemory resp = Except.ok (JVal.arr [])) := by
  refine ⟨?_, ?_, ?_, ?_, ?_⟩
  · intro h
    exact ⟨"HTTPError " ++ toString resp.status,
      by simp [clientGetMemory, raise_for_status, h]⟩
  · intro h hbody
    simp [clientGetMemory, raise_for_status, h, hbody]
  · intro v h hbody hno
    unfold clientGetMemory raise_for_status
    rw [if_neg h, hbody]
    cases v
    case obj kvs => simp [JVal.isObj] at hno
    all_goals rfl
  · intro kvs p h hbody hfind
    simp [clientGetMemory, raise_for_status, h, hbody, dictGet, hfind]
  · intro kvs h hbody hfind
    simp [clientGetMemory, raise_for_status, h, hbody, dictGet, hfind]

/-- **C9** witness: a 500 response propagates as an error. -/
theorem C9_witness :
    ∃ e, clientGetMemory ⟨500, none⟩ = Except.error e :=
  (C9_client_behaviour ⟨500, none⟩).1 (by decide)

theorem dropWhile_replicate_slash (n : Nat) :
    List.dropWhile (fun c => c == '/') (List.replicate n '/') = [] := by
  induction n with
  | zero => rfl
  | succ k ih => simp [List.replicate_succ, List.dropWhile_cons, ih]

/-- `rstrip("/")` erases any block of trailing slashes. -/
theorem rstripSlash_append_slashes (B : String) (n : Nat) :
    rstripSlash (B ++ ⟨List.replicate n '/'⟩) = rstripSlash B := by
  unfold rstripSlash
  have hdata : (B ++ (⟨List.replicate n '/'⟩ : String)).data =
      B.data ++ List.replicate n '/' := rfl
  rw [hdata, List.reverse_append, List.reverse_replicate]
  congr 1
  rw [List.dropWhile_append, dropWhile_replicate_slash]
  simp

/-- **C10**: a client built from `B` and one built from `B` with any number
of trailing slashes appended store the same normalized `base_url` and issue
byte-identical request URLs for both endpoints. -/
theorem C10_trailing_slash_normalized (B : String) (n : Nat) :
    clientBaseUrl (B ++ ⟨List.replicate n '/'⟩) = clientBaseUrl B ∧
      storeMemoryUrl (B ++ ⟨List.replicate n '/'⟩) = storeMemoryUrl B ∧
      getMemoryUrl (B ++ ⟨List.replicate n '/'⟩) = getMemoryUrl B := by
  have hkey := rstripSlash_append_slashes B n
  exact ⟨hkey, by simp [storeMemoryUrl, clientBaseUrl, hkey],
    by simp [getMemoryUrl, clientBaseUrl, hkey]⟩
